import Mathlib

/-!
Shallow embedding of `src/app.py` (KRX ETF daily-change dashboard).

The embedding covers the parts of the program the specification talks
about: the trading-date default computation in `main` (lines 132-140),
the response-array lookup and row normalisation of
`fetch_etf_daily_data` (lines 39-72), and the sort/rank step of `main`
(lines 160-162).

Modelling conventions:
* Dates are proleptic-Gregorian ordinals (`Int`), as in Python's
  `datetime.date.toordinal`; ordinal 1 is a Monday, so
  `weekday o = (o + 6) % 7` matches `date.weekday()` (Monday = 0,
  Saturday = 5, Sunday = 6).
* A JSON record is a finite map from field-code strings to string
  values (the KRX API returns all fields as strings); a missing key is
  `none`.
* `pd.to_numeric(.., errors := coerce)` on a string cell is modelled by
  `parseDecimal` (sign, digits, optional fractional part; anything else
  coerces to `none`, i.e. NaN).  `.fillna(0)` is `Option.getD 0`,
  `.astype(int)` is `ratTrunc` (numpy casts float to int by truncation
  toward zero) and `.round(2)` is `round2` (numpy rounds half to even).
* `DataFrame.sort_values(by := key, ascending := False)` guarantees a
  descending-sorted permutation; with the default quicksort kind the
  order of equal keys is implementation-defined (pandas documents only
  the mergesort/stable kinds as stable).  `sortRows` is a stable
  determinization of that contract, relied on only for consequences
  that hold for every descending-sorted permutation, or for arrays
  small enough to fall to numpy's stable insertion sort.
* The Streamlit message channel (`st.warning` / `st.error`) is part of
  the observable result of a fetch, recorded in a `Notice`.
* An uncaught Python exception (e.g. the `KeyError` raised when a
  renamed column is absent from the frame) is `Except.error`; a normal
  return is `Except.ok`.
-/

/-- Python `date.weekday()` on an ordinal day number: Monday = 0 ...
Sunday = 6. -/
def weekday (o : Int) : Int := (o + 6) % 7

/-- Lines 136-140 of `src/app.py`: the default lookup date is
`today - 1 day`, rolled back by two more days when that lands on a
Sunday (`calendar.SUNDAY = 6`) and by one more day when it lands on a
Saturday (`calendar.SATURDAY = 5`).  The time of day is never
consulted. -/
def defaultDate (today : Int) : Int :=
  let d := today - 1
  if weekday d = 6 then d - 2
  else if weekday d = 5 then d - 1
  else d

/-- Second definition for the refinement comparison, following the
spec's words for `trading_date(now, market_close)`: Saturday and Sunday
roll back to the preceding Friday; a weekday before the market-close
cutoff (minutes of the day, default 930 = 15:30) uses the previous day;
a weekday at or after the cutoff uses the current date itself. -/
def specTradingDate (today : Int) (minutesOfDay : Nat) (cutoff : Nat) : Int :=
  if weekday today = 5 then today - 1
  else if weekday today = 6 then today - 2
  else if minutesOfDay < cutoff then today - 1
  else today

/-- Value of a run of decimal digits. -/
def digitsVal (l : List Char) : Nat :=
  l.foldl (fun a c => a * 10 + (c.toNat - 48)) 0

/-- Model of `pd.to_numeric(s, errors := coerce)` on a string cell for
the inputs that occur here: an optional sign, an integer part and an
optional fractional part, at least one digit in total; any other shape
coerces to NaN (`none`).  The value is assembled with `mkRat` over
integer arithmetic. -/
def parseDecimal (s : String) : Option Rat :=
  let (neg, body) :=
    match s.data with
    | '-' :: r => (true, r)
    | '+' :: r => (false, r)
    | r => (false, r)
  let intPart := body.takeWhile Char.isDigit
  let rest := body.dropWhile Char.isDigit
  let mkVal (frac : List Char) : Option Rat :=
    if intPart.isEmpty && frac.isEmpty then none
    else
      let n : Nat := digitsVal intPart * 10 ^ frac.length + digitsVal frac
      some (mkRat (if neg then -(n : Int) else (n : Int)) (10 ^ frac.length))
  match rest with
  | [] => mkVal []
  | '.' :: frac => if frac.all Char.isDigit then mkVal frac else none
  | _ => none

/-- Model of `.astype(int)` on a (fillna-ed) numeric column: numpy casts
float64 to int64 by truncation toward zero, which on an exact rational
is `Int.tdiv` of the reduced numerator by the denominator. -/
def ratTrunc (q : Rat) : Int := q.num.tdiv q.den

/-- Model of `.round(2)`: numpy rounds half to even at the second
decimal.  Computed on the integer `q.num * 100` over the positive
denominator `q.den` to stay kernel-evaluable. -/
def round2 (q : Rat) : Rat :=
  let n : Int := q.num * 100
  let d : Int := (q.den : Int)
  let f : Int := n.fdiv d
  let r2 : Int := 2 * (n - f * d)
  let v : Int := if r2 < d then f else if d < r2 then f + 1
    else if f % 2 = 0 then f else f + 1
  mkRat v 100

/-- Lines 53-54 of `src/app.py`: the base date is taken from the first
record's `BAS_DD` value; a truthy string of length exactly 8 is sliced
into `YYYY-MM-DD`, anything else gives the sentinel `"알 수 없음"`
(Korean for "unknown"). -/
def baseDateOf : Option String → String
  | none => "알 수 없음"
  | some s =>
    if s ≠ "" ∧ s.length = 8 then
      s.take 4 ++ "-" ++ (s.drop 4).take 2 ++ "-" ++ s.drop 6
    else "알 수 없음"

/-- One element of the API's result array: an open mapping from
field-code strings to string values. -/
structure RawRecord where
  fields : List (String × String)
deriving DecidableEq

/-- Dictionary lookup, `rec.get(key)` in Python. -/
def RawRecord.get (r : RawRecord) (k : String) : Option String :=
  r.fields.lookup k

/-- The top level of a parsed JSON response body: the three array keys
the spec mentions plus the optional `error_message` field.  A key maps
to `none` when absent from the object. -/
structure ApiData where
  OutBlock_1 : Option (List RawRecord)
  outBlock1 : Option (List RawRecord)
  output : Option (List RawRecord)
  error_message : Option String
deriving DecidableEq

/-- Line 44 (and line 97) of `src/app.py`:
`data.get('OutBlock_1', data.get('outBlock1', []))`.  Only these two
keys are consulted. -/
def extractList (d : ApiData) : List RawRecord :=
  (d.OutBlock_1).getD ((d.outBlock1).getD [])

/-- Second definition for the refinement comparison, following the
spec's words: the result array is located under the first present key
among `OutBlock_1`, `outBlock1`, `output`, else the response is treated
as empty. -/
def specExtractList (d : ApiData) : List RawRecord :=
  (d.OutBlock_1).getD ((d.outBlock1).getD ((d.output).getD []))

/-- The normalized display row (the spec's RankedRow before rank
assignment).  `name` and `code` keep the missing-cell case as `none`
(a NaN cell in the frame); `changePct` is the rounded rate. -/
structure Row where
  name : Option String
  code : Option String
  price : Int
  changePct : Rat
  volume : Int
deriving DecidableEq

/-- Lines 64-66 of `src/app.py` applied to one record: numeric coercion
with NaN fill and integer cast for price and volume, rounding for the
change rate. -/
def toRow (r : RawRecord) : Row :=
  { name := r.get "ISU_NM"
    code := r.get "ISU_CD"
    price := ratTrunc (((r.get "TDD_CLSPRC").bind parseDecimal).getD 0)
    changePct := round2 (((r.get "FLUC_RT").bind parseDecimal).getD 0)
    volume := ratTrunc (((r.get "ACC_TRDVOL").bind parseDecimal).getD 0) }

/-- A column of `pd.DataFrame(list-of-dicts)` exists iff some record
carries the key. -/
def hasColumn (lst : List RawRecord) (k : String) : Bool :=
  lst.any fun r => (r.get k).isSome

/-- A Streamlit user-visible message: `st.warning` or `st.error`. -/
inductive Notice where
  | warning (msg : String)
  | error (msg : String)
deriving DecidableEq

/-- The observable outcome of a normal return from
`fetch_etf_daily_data`: the row list and base date it returns plus the
message it displayed, if any. -/
structure FetchReturn where
  rows : List Row
  baseDate : Option String
  notice : Option Notice
deriving DecidableEq

/-- The environment's response to the HTTP call: either a
`requests.exceptions.RequestException` (connection error, timeout, or
the non-2xx status raised by `raise_for_status`) carrying its message,
or a parsed JSON body. -/
inductive FetchOutcome where
  | reqError (msg : String)
  | ok (d : ApiData)
deriving DecidableEq

/-- Default diagnostic used when the response has no `error_message`
field (line 47 of `src/app.py`). -/
def genericNoData : String :=
  "API 응답에서 유효한 데이터(\"OutBlock_1\")를 찾을 수 없습니다."

/-- Message prefix of the `st.warning` on line 48. -/
def extractFailPrefixKo : String := "데이터 추출 실패: "

/-- Message prefix of the `st.error` on line 71. -/
def loadFailPrefixKo : String := "ETF 일별 데이터 로드 실패: "

/-- Lines 39-72 of `src/app.py`.  A `RequestException` is caught and
turned into an `st.error` plus an empty return; an empty or absent
result array gives an `st.warning` plus an empty return; otherwise the
frame is built, and accessing a renamed column that no record supplies
raises an uncaught `KeyError` (modelled as `Except.error`, in the
order the columns are touched on lines 64-68). -/
def fetchDaily (o : FetchOutcome) : Except String FetchReturn :=
  match o with
  | .reqError msg =>
    .ok ⟨[], none, some (.error (loadFailPrefixKo ++ msg))⟩
  | .ok d =>
    let lst := extractList d
    if lst.isEmpty then
      .ok ⟨[], none,
        some (.warning (extractFailPrefixKo ++ (d.error_message).getD genericNoData))⟩
    else if !hasColumn lst "TDD_CLSPRC" then .error "KeyError: 현재가"
    else if !hasColumn lst "FLUC_RT" then .error "KeyError: 등락률 (%)"
    else if !hasColumn lst "ACC_TRDVOL" then .error "KeyError: 거래량"
    else if !hasColumn lst "ISU_NM" then .error "KeyError: 종목명"
    else if !hasColumn lst "ISU_CD" then .error "KeyError: 종목코드"
    else
      .ok ⟨lst.map toRow,
        some (baseDateOf ((lst.head?).bind fun r => r.get "BAS_DD")), none⟩

deriving instance DecidableEq for Except

/-- Stable descending insertion: `x` passes over the strictly larger
keys and lands in front of the first element whose key is not larger,
so an element inserted from further left stays in front of equal
keys. -/
def insertDesc (x : Row) : List Row → List Row
  | [] => [x]
  | y :: ys =>
    if x.changePct < y.changePct then y :: insertDesc x ys
    else x :: y :: ys

/-- Line 160 of `src/app.py`:
`sort_values(by := change column, ascending := False)`, as a stable
determinization: the code's default quicksort kind promises only a
descending-sorted permutation and leaves tie order unspecified, so
only tie-order-independent consequences of this definition (and
concrete evaluations below numpy's small-sort threshold) reflect
guarantees of the program. -/
def sortRows : List Row → List Row
  | [] => []
  | x :: xs => insertDesc x (sortRows xs)

/-- Rank attachment: pairs each row of a list with `n, n+1, ...`. -/
def attachRanks : Nat → List Row → List (Nat × Row)
  | _, [] => []
  | n, x :: xs => (n, x) :: attachRanks (n + 1) xs

/-- Lines 160-162 of `src/app.py`: sort descending by change rate,
reset the index and let the rank column be `index + 1`. -/
def rankRows (l : List Row) : List (Nat × Row) :=
  attachRanks 1 (sortRows l)

/-! Concrete records and responses used by the example parts of the
claims and by the witnesses. -/

/-- Raw row with a change rate of `1.5` (the sample's row 0). -/
def exRec0 : RawRecord :=
  ⟨[("ISU_NM", "ETF A"), ("ISU_CD", "A0001"), ("TDD_CLSPRC", "100"),
    ("FLUC_RT", "1.5"), ("ACC_TRDVOL", "10"), ("BAS_DD", "20251020")]⟩

/-- Raw row with a change rate of `-2.0` (the sample's row 1). -/
def exRec1 : RawRecord :=
  ⟨[("ISU_NM", "ETF B"), ("ISU_CD", "B0002"), ("TDD_CLSPRC", "200"),
    ("FLUC_RT", "-2.0"), ("ACC_TRDVOL", "20"), ("BAS_DD", "20251020")]⟩

/-- Raw row with a change rate of `1.5` (the sample's row 2). -/
def exRec2 : RawRecord :=
  ⟨[("ISU_NM", "ETF C"), ("ISU_CD", "C0003"), ("TDD_CLSPRC", "300"),
    ("FLUC_RT", "1.5"), ("ACC_TRDVOL", "30"), ("BAS_DD", "20251020")]⟩

/-- The response `\x7b\x7d`: no array key, no error message. -/
def dEmpty : ApiData := ⟨none, none, none, none⟩

/-- A response with `OutBlock_1` present but empty, carrying an
`error_message`. -/
def dEmptyArr : ApiData := ⟨some [], none, none, some "장 마감 전"⟩

/-- A response whose only array sits under the key `output`. -/
def dOutOnly : ApiData := ⟨none, none, some [exRec0], none⟩

/-- A record carrying only a name and a date: every numeric field code
is absent. -/
def recNameOnly : RawRecord := ⟨[("ISU_NM", "ETF A"), ("BAS_DD", "20251020")]⟩

/-- A nonempty response whose records never carry `TDD_CLSPRC`, so the
renamed price column is missing from the frame. -/
def dMissingCols : ApiData := ⟨some [recNameOnly], none, none, none⟩

/-- A record whose numeric fields are all present but unparseable. -/
def recBadNums : RawRecord :=
  ⟨[("ISU_NM", "ETF X"), ("ISU_CD", "X0009"), ("TDD_CLSPRC", "abc"),
    ("FLUC_RT", "n/a"), ("ACC_TRDVOL", "?"), ("BAS_DD", "2025102")]⟩

/-- A response containing only `recBadNums`. -/
def dBadNums : ApiData := ⟨some [recBadNums], none, none, none⟩

/-- A record whose close price parses to the non-integer `100.9`. -/
def recPx : RawRecord := ⟨[("TDD_CLSPRC", "100.9")]⟩

/-- The five field codes whose renamed columns lines 64-68 of
`src/app.py` touch. -/
def requiredCols : List String :=
  ["TDD_CLSPRC", "FLUC_RT", "ACC_TRDVOL", "ISU_NM", "ISU_CD"]

/-- Seventeen pairwise-distinct rows (distinguished by price) whose
change rates are all tied: a tied block longer than numpy's small-sort
(insertion-sort) threshold, the shape on which the default quicksort
of `sort_values` exchanges equal elements while partitioning. -/
def tiedRows : List Row :=
  (List.range 17).map fun i => ⟨none, none, (i : Int), 0, 0⟩

/-! Helper lemmas about the stable descending sort. -/

theorem mem_insertDesc {a x : Row} {l : List Row} :
    a ∈ insertDesc x l ↔ a = x ∨ a ∈ l := by
  induction l with
  | nil => simp [insertDesc]
  | cons y ys ih =>
    by_cases h : x.changePct < y.changePct
    · simp only [insertDesc, if_pos h, List.mem_cons, ih]
      tauto
    · simp only [insertDesc, if_neg h, List.mem_cons]

theorem length_insertDesc (x : Row) (l : List Row) :
    (insertDesc x l).length = l.length + 1 := by
  induction l with
  | nil => rfl
  | cons y ys ih =>
    by_cases h : x.changePct < y.changePct <;>
      simp [insertDesc, h, ih]

theorem pairwise_insertDesc {x : Row} {l : List Row}
    (h : l.Pairwise fun a b => b.changePct ≤ a.changePct) :
    (insertDesc x l).Pairwise fun a b => b.changePct ≤ a.changePct := by
  induction l with
  | nil => simp [insertDesc]
  | cons y ys ih =>
    rcases List.pairwise_cons.mp h with ⟨hy, hys⟩
    by_cases hxy : x.changePct < y.changePct
    · simp only [insertDesc, if_pos hxy]
      refine List.pairwise_cons.mpr ⟨?_, ih hys⟩
      intro b hb
      rcases mem_insertDesc.mp hb with rfl | hb
      · exact le_of_lt hxy
      · exact hy b hb
    · simp only [insertDesc, if_neg hxy]
      refine List.pairwise_cons.mpr ⟨?_, h⟩
      intro b hb
      rcases List.mem_cons.mp hb with rfl | hb
      · exact le_of_not_lt hxy
      · exact le_trans (hy b hb) (le_of_not_lt hxy)

theorem length_sortRows (l : List Row) : (sortRows l).length = l.length := by
  induction l with
  | nil => rfl
  | cons x xs ih => rw [sortRows, length_insertDesc, ih, List.length_cons]

theorem pairwise_sortRows (l : List Row) :
    (sortRows l).Pairwise fun a b => b.changePct ≤ a.changePct := by
  induction l with
  | nil => simp [sortRows]
  | cons x xs ih => exact pairwise_insertDesc ih

theorem map_fst_attachRanks (n : Nat) (l : List Row) :
    (attachRanks n l).map Prod.fst = List.range' n l.length := by
  induction l generalizing n with
  | nil => rfl
  | cons x xs ih => simp [attachRanks, List.range'_succ, ih]

theorem length_attachRanks (n : Nat) (l : List Row) :
    (attachRanks n l).length = l.length := by
  induction l generalizing n with
  | nil => rfl
  | cons x xs ih => simp [attachRanks, ih]

theorem mem_attachRanks {b : Nat × Row} {n : Nat} {l : List Row}
    (hb : b ∈ attachRanks n l) : n ≤ b.1 ∧ b.2 ∈ l := by
  induction l generalizing n with
  | nil => cases hb
  | cons x xs ih =>
    rcases List.mem_cons.mp hb with rfl | hb
    · exact ⟨le_refl _, List.mem_cons_self _ _⟩
    · rcases ih hb with ⟨h1, h2⟩
      exact ⟨le_trans (Nat.le_succ n) h1, List.mem_cons_of_mem _ h2⟩

theorem pairwise_attachRanks {l : List Row} (n : Nat)
    (h : l.Pairwise fun a b => b.changePct ≤ a.changePct) :
    (attachRanks n l).Pairwise fun a b =>
      a.1 < b.1 ∧ b.2.changePct ≤ a.2.changePct := by
  induction l generalizing n with
  | nil => simp [attachRanks]
  | cons x xs ih =>
    rcases List.pairwise_cons.mp h with ⟨hx, hxs⟩
    refine List.pairwise_cons.mpr ⟨?_, ih (n + 1) hxs⟩
    intro b hb
    rcases mem_attachRanks hb with ⟨h1, h2⟩
    exact ⟨Nat.lt_of_lt_of_le (Nat.lt_succ_self n) h1, hx b.2 h2⟩

/-! Helper lemmas about the fetch pipeline. -/

theorem ratTrunc_zero : ratTrunc 0 = 0 := by decide

theorem round2_zero : round2 0 = 0 := by decide

theorem hasColumn_of_forall {lst : List RawRecord} {k : String}
    (hne : lst ≠ []) (hall : ∀ r ∈ lst, ((r.get k)).isSome) :
    hasColumn lst k = true := by
  cases lst with
  | nil => exact absurd rfl hne
  | cons r rs =>
    exact List.any_eq_true.mpr
      ⟨r, List.mem_cons_self _ _, hall r (List.mem_cons_self _ _)⟩

theorem fetchDaily_reqError (msg : String) :
    fetchDaily (.reqError msg) =
      .ok ⟨[], none, some (.error (loadFailPrefixKo ++ msg))⟩ := rfl

theorem fetchDaily_empty {d : ApiData} (h : extractList d = []) :
    fetchDaily (.ok d) = .ok ⟨[], none,
      some (.warning
        (extractFailPrefixKo ++ (d.error_message).getD genericNoData))⟩ := by
  simp [fetchDaily, h]

theorem fetchDaily_ok_of_cols {d : ApiData}
    (hne : extractList d ≠ [])
    (hall : ∀ r ∈ extractList d, ∀ k ∈ requiredCols, ((r.get k)).isSome) :
    fetchDaily (.ok d) = .ok ⟨(extractList d).map toRow,
      some (baseDateOf (((extractList d).head?).bind fun r => r.get "BAS_DD")),
      none⟩ := by
  have hE : (extractList d).isEmpty = false := by
    simp [List.isEmpty_iff, hne]
  have h1 : hasColumn (extractList d) "TDD_CLSPRC" = true :=
    hasColumn_of_forall hne fun r hr => hall r hr _ (by simp [requiredCols])
  have h2 : hasColumn (extractList d) "FLUC_RT" = true :=
    hasColumn_of_forall hne fun r hr => hall r hr _ (by simp [requiredCols])
  have h3 : hasColumn (extractList d) "ACC_TRDVOL" = true :=
    hasColumn_of_forall hne fun r hr => hall r hr _ (by simp [requiredCols])
  have h4 : hasColumn (extractList d) "ISU_NM" = true :=
    hasColumn_of_forall hne fun r hr => hall r hr _ (by simp [requiredCols])
  have h5 : hasColumn (extractList d) "ISU_CD" = true :=
    hasColumn_of_forall hne fun r hr => hall r hr _ (by simp [requiredCols])
  simp [fetchDaily, hE, h1, h2, h3, h4, h5]

theorem extractFail_ne_empty (m : String) : extractFailPrefixKo ++ m ≠ "" := by
  intro h
  have hlen := congrArg String.length h
  rw [String.length_append] at hlen
  have hp : 0 < extractFailPrefixKo.length := by decide
  have hz : ("" : String).length = 0 := rfl
  omega

/-! Claim theorems. -/

/-- Claim C1, settling the code bug: line 160 sorts with the default
kind of `sort_values`, quicksort, which pandas documents as not
stable - the code's only guarantee is a descending-sorted permutation.
On the failing input `tiedRows` (a tied block longer than numpy's
small-sort threshold, where introsort's partition exchanges equal
elements) the reversed list satisfies that guarantee while breaking
the original order of every tie, so the claimed universal tie
preservation is not ensured by the code; the spec's demand for a
stable sort would need the stable/mergesort kind.  The claim's
concrete three-row example itself is guaranteed - arrays below the
threshold fall to numpy's stable insertion sort, and pandas derives
the descending permutation by double reversal of the ascending
argsort - and evaluates exactly as stated: row 0 (rank 1), row 2
(rank 2), row 1 (rank 3). -/
theorem ranking_quicksort_tie_C1 :
    tiedRows.reverse.Perm tiedRows ∧
    (tiedRows.reverse.Pairwise fun a b => b.changePct ≤ a.changePct) ∧
    tiedRows.reverse ≠ tiedRows ∧
    tiedRows.map (fun r => r.changePct) = List.replicate 17 0 ∧
    (toRow exRec0).changePct = 1.5 ∧
    (toRow exRec1).changePct = -2.0 ∧
    (toRow exRec2).changePct = 1.5 ∧
    rankRows [toRow exRec0, toRow exRec1, toRow exRec2] =
      [(1, toRow exRec0), (2, toRow exRec2), (3, toRow exRec1)] := by
  refine ⟨List.reverse_perm tiedRows, by decide, by decide, by decide,
    ?_, ?_, ?_, by decide⟩
  · have h : (toRow exRec0).changePct = mkRat 3 2 := by decide
    rw [h]
    norm_num [mkRat, Rat.normalize]
  · have h : (toRow exRec1).changePct = mkRat (-2) 1 := by decide
    rw [h]
    norm_num [mkRat, Rat.normalize]
  · have h : (toRow exRec2).changePct = mkRat 3 2 := by decide
    rw [h]
    norm_num [mkRat, Rat.normalize]

/-- Claim C3: for every input row set the ranked output has the same
length, its rank column is exactly `1..N` in order (dense, no gaps or
duplicates), and along the output the ranks increase while the change
rates never increase (consistency with the descending sort). -/
theorem ranking_dense_ranks_C3 : ∀ l : List Row,
    (rankRows l).length = l.length ∧
    (rankRows l).map Prod.fst = List.range' 1 l.length ∧
    (rankRows l).Pairwise fun a b =>
      a.1 < b.1 ∧ b.2.changePct ≤ a.2.changePct := by
  intro l
  refine ⟨?_, ?_, ?_⟩
  · rw [rankRows, length_attachRanks, length_sortRows]
  · rw [rankRows, map_fst_attachRanks, length_sortRows]
  · exact pairwise_attachRanks 1 (pairwise_sortRows l)

/-- Counterexample to claim C2: on Wednesday ordinal 3 at 16:00 (960
minutes, at or after the 15:30 = 930 cutoff) the claim requires the
date itself, but the code returns the previous day - the code never
consults the time of day. -/
theorem trading_date_C2_counterexample :
    weekday 3 = 2 ∧ defaultDate 3 = 2 ∧ specTradingDate 3 960 930 = 3 ∧
    defaultDate 3 ≠ specTradingDate 3 960 930 := by decide

/-- Claim C2 as amended: the code ignores the time of day entirely and
returns the most recent Mon-Fri day strictly before the current date:
one day back, three days back when the current day is Monday, two days
back when it is Sunday (so Saturday and Sunday still map to the
preceding Friday, but a weekday is never returned unchanged). -/
theorem trading_date_C2_amended : ∀ today : Int,
    defaultDate today =
      today - (if weekday today = 0 then 3
        else if weekday today = 6 then 2 else 1) ∧
    weekday (defaultDate today) < 5 ∧
    defaultDate today < today ∧
    ∀ d : Int, defaultDate today < d → d < today → 5 ≤ weekday d := by
  intro today
  refine ⟨?_, ?_, ?_, ?_⟩
  · simp only [defaultDate, weekday]
    split_ifs <;> omega
  · simp only [defaultDate, weekday]
    split_ifs <;> omega
  · simp only [defaultDate, weekday]
    split_ifs <;> omega
  · intro d h1 h2
    simp only [defaultDate, weekday] at h1 ⊢
    split_ifs at h1 <;> omega

/-- Witness for the amended claim C2 at the concrete Sunday ordinal 7:
the default is the Friday two days earlier, and the Saturday ordinal 6
strictly between them is indeed not a weekday. -/
theorem trading_date_C2_amended_witness :
    defaultDate 7 = 5 ∧ weekday (defaultDate 7) < 5 ∧ defaultDate 7 < 7 ∧
    5 ≤ weekday 6 := by
  have h := trading_date_C2_amended 7
  exact ⟨by decide, h.2.1, h.2.2.1, h.2.2.2 6 (by decide) (by decide)⟩

/-- Claim C4: a response whose result array is empty or absent makes
the fetch return a successful empty snapshot (no exception), together
with a warning whose text comes from the `error_message` field when
present and from the generic no-data text otherwise, and that
diagnostic is never the empty string. -/
theorem fetch_empty_soft_C4 : ∀ d : ApiData, extractList d = [] →
    fetchDaily (.ok d) = .ok ⟨[], none,
      some (.warning
        (extractFailPrefixKo ++ (d.error_message).getD genericNoData))⟩ ∧
    (∀ m, d.error_message = some m →
      fetchDaily (.ok d) = .ok ⟨[], none,
        some (.warning (extractFailPrefixKo ++ m))⟩) ∧
    (d.error_message = none →
      fetchDaily (.ok d) = .ok ⟨[], none,
        some (.warning (extractFailPrefixKo ++ genericNoData))⟩) ∧
    ∀ m, extractFailPrefixKo ++ m ≠ "" := by
  intro d hd
  refine ⟨fetchDaily_empty hd, ?_, ?_, extractFail_ne_empty⟩
  · intro m hm
    rw [fetchDaily_empty hd, hm]
    rfl
  · intro hm
    rw [fetchDaily_empty hd, hm]
    rfl

/-- Witness for claim C4 at the empty object response and at a response
with an empty `OutBlock_1` array carrying an `error_message`. -/
theorem fetch_empty_soft_C4_witness :
    fetchDaily (.ok dEmpty) = .ok ⟨[], none,
      some (.warning (extractFailPrefixKo ++ genericNoData))⟩ ∧
    fetchDaily (.ok dEmptyArr) = .ok ⟨[], none,
      some (.warning (extractFailPrefixKo ++ "장 마감 전"))⟩ ∧
    extractFailPrefixKo ++ genericNoData ≠ "" := by
  exact ⟨(fetch_empty_soft_C4 dEmpty rfl).2.2.1 rfl,
    (fetch_empty_soft_C4 dEmptyArr rfl).2.1 "장 마감 전" rfl,
    (fetch_empty_soft_C4 dEmpty rfl).2.2.2 genericNoData⟩

/-- Claim C5: a network-level failure (connection error, timeout, or
non-2xx status, all surfacing as the caught `RequestException`) makes
the fetch return normally - so the caller is not terminated - with an
error-severity notice, which distinguishes it from the warning-severity
notice of the soft empty-snapshot case. -/
theorem fetch_network_hard_C5 : ∀ (msg : String) (d : ApiData),
    extractList d = [] →
    fetchDaily (.reqError msg) =
      .ok ⟨[], none, some (.error (loadFailPrefixKo ++ msg))⟩ ∧
    (∃ w, fetchDaily (.ok d) = .ok ⟨[], none, some (.warning w)⟩) ∧
    ∀ r1 r2, fetchDaily (.reqError msg) = .ok r1 →
      fetchDaily (.ok d) = .ok r2 → r1.notice ≠ r2.notice := by
  intro msg d hd
  have h2 := fetchDaily_empty hd
  refine ⟨fetchDaily_reqError msg, ⟨_, h2⟩, ?_⟩
  intro r1 r2 e1 e2
  rw [fetchDaily_reqError msg] at e1
  rw [h2] at e2
  injection e1 with e1'
  injection e2 with e2'
  rw [← e1', ← e2']
  simp

/-- Witness for claim C5 at a concrete timeout message and the empty
object response. -/
theorem fetch_network_hard_C5_witness :
    fetchDaily (.reqError "timeout") =
      .ok ⟨[], none, some (.error (loadFailPrefixKo ++ "timeout"))⟩ ∧
    (∃ w, fetchDaily (.ok dEmpty) = .ok ⟨[], none, some (.warning w)⟩) := by
  exact ⟨(fetch_network_hard_C5 "timeout" dEmpty rfl).1,
    (fetch_network_hard_C5 "timeout" dEmpty rfl).2.1⟩

/-- Counterexample to claim C6: the code consults only the keys
`OutBlock_1` and `outBlock1`; a response whose array sits under the
third claimed key `output` is treated as empty, unlike the
spec-modelled three-key lookup. -/
theorem extract_keys_C6_counterexample :
    dOutOnly.output = some [exRec0] ∧
    specExtractList dOutOnly = [exRec0] ∧
    extractList dOutOnly = [] ∧
    extractList dOutOnly ≠ specExtractList dOutOnly ∧
    fetchDaily (.ok dOutOnly) = .ok ⟨[], none,
      some (.warning (extractFailPrefixKo ++ genericNoData))⟩ := by decide

/-- Claim C6 as amended: the result array is located under
`OutBlock_1` first and `outBlock1` second; when neither key is present
the response is treated as empty regardless of any other key (in
particular `output` is never consulted). -/
theorem extract_keys_C6_amended : ∀ (d : ApiData) (l : List RawRecord),
    (d.OutBlock_1 = some l → extractList d = l) ∧
    (d.OutBlock_1 = none → d.outBlock1 = some l → extractList d = l) ∧
    (d.OutBlock_1 = none → d.outBlock1 = none → extractList d = []) := by
  intro d l
  refine ⟨fun h => ?_, fun h h' => ?_, fun h h' => ?_⟩ <;>
    simp [extractList, h, *]

/-- Witness for the amended claim C6: the primary key wins when
present, and a response carrying only the `output` key extracts as
empty. -/
theorem extract_keys_C6_amended_witness :
    extractList dMissingCols = [recNameOnly] ∧ extractList dOutOnly = [] := by
  exact ⟨(extract_keys_C6_amended dMissingCols [recNameOnly]).1 rfl,
    (extract_keys_C6_amended dOutOnly []).2.2 rfl rfl⟩

/-- Claim C7: every string of length exactly 8 (in particular every
8-digit date) is sliced into `YYYY-MM-DD` form, a missing value or a
string of any other length gives the unknown sentinel, and the claim's
example reformats as stated. -/
theorem base_date_format_C7 :
    (∀ s : String, s.length = 8 →
      baseDateOf (some s) =
        s.take 4 ++ "-" ++ (s.drop 4).take 2 ++ "-" ++ s.drop 6) ∧
    (∀ s : String, s.length ≠ 8 → baseDateOf (some s) = "알 수 없음") ∧
    baseDateOf none = "알 수 없음" ∧
    baseDateOf (some "20251020") = "2025-10-20" := by
  refine ⟨?_, ?_, rfl, by decide⟩
  · intro s h8
    have hne : s ≠ "" := by
      intro he
      rw [he] at h8
      exact absurd h8 (by decide)
    simp [baseDateOf, hne, h8]
  · intro s h8
    simp [baseDateOf, h8]

/-- Witness for claim C7 at the 8-digit example date and at a 7-digit
string. -/
theorem base_date_format_C7_witness :
    baseDateOf (some "20251020") = "2025-10-20" ∧
    baseDateOf (some "2025102") = "알 수 없음" := by
  exact ⟨(base_date_format_C7.1 "20251020" (by decide)).trans (by decide),
    base_date_format_C7.2.1 "2025102" (by decide)⟩

/-- Claim C8: numeric coercion is per-field total - a present but
unparseable price, change-rate, or volume value coerces to `0`
(respectively `0.0` for the change rate) in the row - and a nonempty
result array whose records carry all expected field codes is converted
row by row (no row dropped, no exception), preserving the length. -/
theorem coercion_total_C8 :
    (∀ (r : RawRecord) (s : String), r.get "TDD_CLSPRC" = some s →
      parseDecimal s = none → (toRow r).price = 0) ∧
    (∀ (r : RawRecord) (s : String), r.get "FLUC_RT" = some s →
      parseDecimal s = none → (toRow r).changePct = 0) ∧
    (∀ (r : RawRecord) (s : String), r.get "ACC_TRDVOL" = some s →
      parseDecimal s = none → (toRow r).volume = 0) ∧
    (∀ d : ApiData, extractList d ≠ [] →
      (∀ r ∈ extractList d, ∀ k ∈ requiredCols, ((r.get k)).isSome) →
      fetchDaily (.ok d) = .ok ⟨(extractList d).map toRow,
        some (baseDateOf
          (((extractList d).head?).bind fun r => r.get "BAS_DD")), none⟩ ∧
      ((extractList d).map toRow).length = (extractList d).length) := by
  refine ⟨?_, ?_, ?_, ?_⟩
  · intro r s h1 h2
    show ratTrunc (((r.get "TDD_CLSPRC").bind parseDecimal).getD 0) = 0
    rw [h1]
    simp [h2, ratTrunc_zero]
  · intro r s h1 h2
    show round2 (((r.get "FLUC_RT").bind parseDecimal).getD 0) = 0
    rw [h1]
    simp [h2, round2_zero]
  · intro r s h1 h2
    show ratTrunc (((r.get "ACC_TRDVOL").bind parseDecimal).getD 0) = 0
    rw [h1]
    simp [h2, ratTrunc_zero]
  · intro d hne hall
    exact ⟨fetchDaily_ok_of_cols hne hall, List.length_map _ _⟩

/-- Witness for claim C8 at a record whose three numeric fields are all
present but unparseable: each coerces to zero, and the one-record
response converts without an error. -/
theorem coercion_total_C8_witness :
    (toRow recBadNums).price = 0 ∧
    (toRow recBadNums).changePct = 0 ∧
    (toRow recBadNums).volume = 0 ∧
    fetchDaily (.ok dBadNums) =
      .ok ⟨[toRow recBadNums], some "알 수 없음", none⟩ := by
  refine ⟨coercion_total_C8.1 recBadNums "abc" (by decide) (by decide),
    coercion_total_C8.2.1 recBadNums "n/a" (by decide) (by decide),
    coercion_total_C8.2.2.1 recBadNums "?" (by decide) (by decide),
    ((coercion_total_C8.2.2.2 dBadNums (by decide) (by decide)).1).trans
      (by decide)⟩

/-- Counterexample to claim C9: a nonempty result array whose records
never carry the `TDD_CLSPRC` field code leaves the renamed price column
out of the frame, and the fetch raises an uncaught `KeyError` instead
of returning a result or a typed error. -/
theorem fetch_no_crash_C9_counterexample :
    extractList dMissingCols = [recNameOnly] ∧
    recNameOnly.get "TDD_CLSPRC" = none ∧
    fetchDaily (.ok dMissingCols) = .error "KeyError: 현재가" := by decide

/-- Claim C9 as amended: no exception escapes for a network failure,
for an empty or absent result array, or for a nonempty array whose
records carry all expected field codes; but an exception does escape
for some payload (a nonempty array all of whose records lack an
expected field code). -/
theorem fetch_no_crash_C9_amended :
    (∀ msg, ∃ ret, fetchDaily (.reqError msg) = .ok ret) ∧
    (∀ d, extractList d = [] → ∃ ret, fetchDaily (.ok d) = .ok ret) ∧
    (∀ d, extractList d ≠ [] →
      (∀ r ∈ extractList d, ∀ k ∈ requiredCols, ((r.get k)).isSome) →
      ∃ ret, fetchDaily (.ok d) = .ok ret) ∧
    (∃ (d : ApiData) (e : String), fetchDaily (.ok d) = .error e) := by
  exact ⟨fun msg => ⟨_, fetchDaily_reqError msg⟩,
    fun d hd => ⟨_, fetchDaily_empty hd⟩,
    fun d hd hall => ⟨_, fetchDaily_ok_of_cols hd hall⟩,
    ⟨dMissingCols, "KeyError: 현재가", by decide⟩⟩

/-- Witness for the amended claim C9 at a concrete network failure, the
empty object response, and a well-keyed one-record response. -/
theorem fetch_no_crash_C9_witness :
    (∃ ret, fetchDaily (.reqError "boom") = .ok ret) ∧
    (∃ ret, fetchDaily (.ok dEmpty) = .ok ret) ∧
    (∃ ret, fetchDaily (.ok dBadNums) = .ok ret) := by
  exact ⟨fetch_no_crash_C9_amended.1 "boom",
    fetch_no_crash_C9_amended.2.1 dEmpty (by decide),
    fetch_no_crash_C9_amended.2.2.1 dBadNums (by decide) (by decide)⟩

/-- Claim C10: a price or volume value that parses to a rational is
stored as that value truncated toward zero (`ratTrunc` equals the floor
on nonnegative values and the ceiling on nonpositive ones), the zero
default is applied before the integer conversion, and the string
`"100.9"` parses to `1009/10`, which truncates to `100`. -/
theorem int_cast_trunc_C10 :
    (∀ (r : RawRecord) (s : String) (q : Rat), r.get "TDD_CLSPRC" = some s →
      parseDecimal s = some q → (toRow r).price = ratTrunc q) ∧
    (∀ (r : RawRecord) (s : String) (q : Rat), r.get "ACC_TRDVOL" = some s →
      parseDecimal s = some q → (toRow r).volume = ratTrunc q) ∧
    (∀ q : Rat, 0 ≤ q → ratTrunc q = ⌊q⌋) ∧
    (∀ q : Rat, q ≤ 0 → ratTrunc q = ⌈q⌉) ∧
    (∀ (r : RawRecord) (s : String), r.get "TDD_CLSPRC" = some s →
      parseDecimal s = none → (toRow r).price = ratTrunc 0) ∧
    parseDecimal "100.9" = some (mkRat 1009 10) ∧
    ratTrunc (mkRat 1009 10) = 100 := by
  have hfloor : ∀ q : Rat, 0 ≤ q → ratTrunc q = ⌊q⌋ := by
    intro q hq
    have hnum : 0 ≤ q.num := Rat.num_nonneg.mpr hq
    have hden : (0 : Int) ≤ (q.den : Int) := Int.ofNat_nonneg _
    have h2 : (⌊q⌋ : Int) = q.num / (q.den : Int) := by
      conv_lhs => rw [← Rat.num_div_den q]
      exact Rat.floor_intCast_div_natCast q.num q.den
    rw [ratTrunc, Int.tdiv_eq_ediv hnum hden, h2]
  have hceil : ∀ q : Rat, q ≤ 0 → ratTrunc q = ⌈q⌉ := by
    intro q hq
    have h1 : (0 : Rat) ≤ -q := neg_nonneg.mpr hq
    have h2 : ratTrunc (-q) = ⌊-q⌋ := hfloor _ h1
    have h3 : ratTrunc (-q) = -ratTrunc q := by
      rw [ratTrunc, ratTrunc, Rat.neg_num, Rat.neg_den, Int.neg_tdiv]
    have h4 : ⌊-q⌋ = -⌈q⌉ := Int.floor_neg
    omega
  refine ⟨?_, ?_, hfloor, hceil, ?_, by decide, by decide⟩
  · intro r s q h1 h2
    show ratTrunc (((r.get "TDD_CLSPRC").bind parseDecimal).getD 0) = ratTrunc q
    rw [h1]
    simp [h2]
  · intro r s q h1 h2
    show ratTrunc (((r.get "ACC_TRDVOL").bind parseDecimal).getD 0) = ratTrunc q
    rw [h1]
    simp [h2]
  · intro r s h1 h2
    show ratTrunc (((r.get "TDD_CLSPRC").bind parseDecimal).getD 0) = ratTrunc 0
    rw [h1]
    simp [h2]

/-- Witness for claim C10: a record whose price field reads `"100.9"`
stores the truncated price `100`, and on the negative value `-1009/10`
the truncation agrees with the ceiling. -/
theorem int_cast_trunc_C10_witness :
    (toRow recPx).price = 100 ∧
    ratTrunc (mkRat (-1009) 10) = ⌈(mkRat (-1009) 10 : Rat)⌉ := by
  exact ⟨(int_cast_trunc_C10.1 recPx "100.9" (mkRat 1009 10) (by decide)
      (by decide)).trans (by decide),
    int_cast_trunc_C10.2.2.2.1 (mkRat (-1009) 10) (by decide)⟩
